import Mathlib

set_option maxRecDepth 100000
set_option maxHeartbeats 4000000

/-!
Verification of the digest pipeline in `src/digest.py` (youtube-channel-digest).

The Python source is shallowly embedded below.  Conventions:

* Python strings are modelled as `String` / `List Char`.
* Item (video) identifiers are modelled as `Nat`; timestamps (`datetime`) as
  `Int` seconds, so `timedelta(days = d)` is `d * 86400`.
* Python float division `likes / views` is modelled as exact division in `ℚ`.
* External collaborators (feed fetching, the YouTube data API, the Anthropic
  client, SMTP delivery) are passed in as explicit inputs/oracles, exactly as
  the spec directs ("specified only by their interface").  The data they
  return is processed by the embedded code.
* A Python `set` of identifiers carries no insertion-order information; its
  `list(...)` enumeration is implementation-defined (hash order).  We model
  the enumeration canonically as the sorted list of the distinct elements.
  Like CPython's enumeration, this order is a function of the set's contents
  only — it retains no information about when an element was added.  The
  lemma `pySetAsList_eq_of_same_mem` below records this content-only
  dependence, which is what the claims about eviction order turn on.
-/

namespace DigestPy

/-! ### `_parse_duration` / `_is_short_video` (src/digest.py lines 121-136)

The regex `PT(?:(\d+)H)?(?:(\d+)M)?(?:(\d+)S)?` is applied with `re.match`
(anchored at the start, prefix match).  Since every group is optional, the
regex matches exactly the strings starting with `"PT"`; on any other string
`_parse_duration` returns `(0, 0, 0)`.  Each optional group `(?:(\d+)X)?`
consumes a maximal digit run followed by the literal marker `X`, or nothing:
a shorter digit run can never succeed because the character after it would be
a digit, not the marker, so the greedy maximal-run semantics is exact. -/

/-- Maximal digit run at the head of a character list, with the rest. -/
def takeDigits : List Char → List Char × List Char
  | [] => ([], [])
  | c :: cs =>
    if c.isDigit then
      let p := takeDigits cs
      (c :: p.1, p.2)
    else ([], c :: cs)

/-- Value of a decimal digit string, most significant digit first
(the regex group is converted with Python `int`). -/
def digitsToNat (ds : List Char) : Nat :=
  ds.foldl (fun a c => 10 * a + (c.toNat - 48)) 0

/-- One optional regex group `(?:(\d+)X)?` where `X` is `marker`:
either a nonempty digit run immediately followed by the marker (group
captured, both consumed), or nothing (input left unchanged). -/
def parseGroup (marker : Char) (s : List Char) : Option Nat × List Char :=
  match takeDigits s with
  | ([], _) => (none, s)
  | (ds, rest) =>
    match rest with
    | [] => (none, s)
    | c :: r => if c = marker then (some (digitsToNat ds), r) else (none, s)

/-- Embedding of `_parse_duration` on the underlying character list. -/
def parseDurationChars (s : List Char) : Nat × Nat × Nat :=
  match s with
  | 'P' :: 'T' :: rest =>
    let ph := parseGroup 'H' rest
    let pm := parseGroup 'M' ph.2
    let ps := parseGroup 'S' pm.2
    (ph.1.getD 0, pm.1.getD 0, ps.1.getD 0)
  | _ => (0, 0, 0)

/-- Embedding of `_parse_duration` (src/digest.py line 121). -/
def parseDuration (s : String) : Nat × Nat × Nat :=
  parseDurationChars s.data

/-- Total seconds of a parsed `(hours, minutes, seconds)` triple,
as computed inside `_is_short_video`. -/
def totalSeconds (t : Nat × Nat × Nat) : Nat :=
  t.1 * 3600 + t.2.1 * 60 + t.2.2

/-- Embedding of `_is_short_video` (src/digest.py line 132). -/
def isShortVideo (s : String) : Bool :=
  decide (totalSeconds (parseDuration s) < 60)

/-- Decimal digit characters of `n`, most significant first, as produced by
Python string formatting (`f"PT{h}H..."` would, and the YouTube API does,
render numbers this way). -/
def natChars (n : Nat) : List Char :=
  if n = 0 then ['0']
  else (Nat.digits 10 n).reverse.map fun d => Char.ofNat (48 + d)

/-- A well-formed ISO-8601 duration token `PT{h}H{m}M{s}S`. -/
def durTok (h m s : Nat) : List Char :=
  'P' :: 'T' :: (natChars h ++ 'H' :: (natChars m ++ 'M' :: (natChars s ++ ['S'])))

/-! ### Data model -/

/-- One entry of a channel RSS feed, as built by `get_channel_feed`
(src/digest.py lines 103-118): identifier, publish timestamp and URL.
The `title` / `channel` fields are carried along only into prompt/HTML
text and are omitted.  The publish timestamp is modelled directly as the
`Int` value that `datetime.fromisoformat(...)` yields at line 603. -/
structure FeedVideo where
  id : Nat
  pubTime : Int
  url : List Char
deriving DecidableEq

/-- One item of the YouTube data API response consumed by
`get_video_details` (src/digest.py lines 207-225): statistics, plus the
`contentDetails.duration` token, which may be absent
(`content.get("duration", "PT0S")`). -/
structure ApiItem where
  viewCount : Nat
  likeCount : Nat
  commentCount : Nat
  duration : Option String
deriving DecidableEq

/-- The per-video record `get_video_details` stores in its `details` dict
(src/digest.py lines 217-225). -/
structure VideoDetail where
  views : Nat
  likes : Nat
  comments : Nat
  isShort : Bool
  duration : String
deriving DecidableEq

/-- Body of the `details[vid] = ...` assignment in `get_video_details`
(src/digest.py lines 213-225): the duration token defaults to `"PT0S"`
when absent, and the short-form flag is computed from it. -/
def detailOfApiItem (it : ApiItem) : VideoDetail :=
  let durationStr := it.duration.getD "PT0S"
  { views := it.viewCount
    likes := it.likeCount
    comments := it.commentCount
    isShort := isShortVideo durationStr
    duration := durationStr }

/-- A selected video after the enrichment loop (src/digest.py lines
621-625) merged its detail record in.  A video whose id is missing from
the details dict keeps no `views`/`likes`/`is_short` keys; the later
readers use `v.get("views", 0)`, `v.get("likes", 0)` and
`v.get("is_short", False)`, so the defaults are 0/0/false. -/
structure Video where
  id : Nat
  pubTime : Int
  url : List Char
  views : Nat
  likes : Nat
  isShort : Bool
deriving DecidableEq

/-- Enrichment of one selected video (src/digest.py lines 621-625),
with `details` the oracle for the YouTube data API response
(`none` = the id is absent from the response, e.g. the fetch failed). -/
def enrichVideo (details : Nat → Option ApiItem) (v : FeedVideo) : Video :=
  match details v.id with
  | some it =>
    let d := detailOfApiItem it
    { id := v.id, pubTime := v.pubTime, url := v.url
      views := d.views, likes := d.likes, isShort := d.isShort }
  | none =>
    { id := v.id, pubTime := v.pubTime, url := v.url
      views := 0, likes := 0, isShort := false }

/-! ### Selection window and dedup filter (src/digest.py lines 580-608) -/

/-- Window lookback in days: the `if frequency == ...` chain at lines
581-586 (any unrecognised frequency falls into the weekly branch). -/
def windowDays (frequency : String) : Nat :=
  if frequency = "daily" then 1
  else if frequency = "biweekly" then 3
  else 7

/-- `start_date = end_date - timedelta(days = ...)` with `end_date = now`. -/
def windowStart (now : Int) (frequency : String) : Int :=
  now - windowDays frequency * 86400

/-- The selection loop (src/digest.py lines 593-608): channels that fail
to resolve are skipped (`none` entries); feed entries are kept iff
`pub_date >= start_date and v["id"] not in seen_ids`.  Note the source
imposes no upper bound on the publish time. -/
def selectNew (feeds : List (Option (List FeedVideo))) (startDate : Int)
    (seen : List Nat) : List FeedVideo :=
  ((feeds.filterMap id).flatten).filter fun v =>
    decide (startDate ≤ v.pubTime) && !(decide (v.id ∈ seen))

/-! ### Shorts exclusion (src/digest.py line 628) -/

/-- Bool test that `pat` occurs at the head of `s`. -/
def listStartsWith : List Char → List Char → Bool
  | [], _ => true
  | _ :: _, [] => false
  | c :: cs, d :: ds => c = d && listStartsWith cs ds

/-- Bool test that `pat` occurs somewhere in `s` (Python `pat in s`). -/
def listHasSub (pat : List Char) : List Char → Bool
  | [] => pat.isEmpty
  | c :: cs => listStartsWith pat (c :: cs) || listHasSub pat cs

/-- The Python literal `"/shorts/"`. -/
def shortsMark : List Char := ['/', 's', 'h', 'o', 'r', 't', 's', '/']

/-- The filter at line 628: keep `v` iff not flagged short-form and the
URL does not contain `"/shorts/"`. -/
def filterShorts (vs : List Video) : List Video :=
  vs.filter fun v => !v.isShort && !listHasSub shortsMark v.url

/-! ### `analyze_with_claude` (src/digest.py lines 257-349)

The Anthropic client is the external collaborator: `themeCall` is the
outcome of the theme-summary call (`none` = the call raised), and
`videoCall i` is the outcome of the per-video call for video `i` after
the JSON block extraction and `json.loads` of lines 341-343 (`none` = the
call raised, no brace-delimited block was found, or parsing failed). -/

/-- The structured per-video record parsed from the model response. -/
structure Analysis where
  guests : List String
  topics : List String
  sentiment : String
  category : String
  summary : String
deriving DecidableEq

/-- The closed-set default record of line 347:
`{"guests": [], "topics": [], "sentiment": "unknown", "category": "Other", "summary": ""}`. -/
def defaultAnalysis : Analysis :=
  { guests := [], topics := [], sentiment := "unknown"
    category := "Other", summary := "" }

/-- The return value of `analyze_with_claude`. -/
structure AnalysisResult where
  themes : String
  videoAnalyses : List (Nat × Analysis)
deriving DecidableEq

/-- Embedding of `analyze_with_claude`: without an API key it returns the
placeholder result of line 260; otherwise the theme falls back to
`"Theme analysis unavailable"` (line 303) and each video's entry falls
back to the closed-set defaults (line 347). -/
def analyzeWithClaude (hasKey : Bool) (themeCall : Option String)
    (videoCall : Nat → Option Analysis) (videos : List Video) : AnalysisResult :=
  if !hasKey then
    { themes := "AI analysis unavailable (no API key)", videoAnalyses := [] }
  else
    { themes := themeCall.getD "Theme analysis unavailable"
      videoAnalyses := videos.map fun v => (v.id, (videoCall v.id).getD defaultAnalysis) }

/-- Dict lookup `analysis.get("video_analyses", {}).get(v["id"], {})`
followed by the field reads with their defaults (lines 390-403): a
missing entry behaves exactly like `defaultAnalysis` fieldwise.  A dict
built by repeated assignment maps a key to its last written value, hence
the lookup over the reversed association list. -/
def lookupAnalysis (m : List (Nat × Analysis)) (i : Nat) : Analysis :=
  match m.reverse.find? (fun p => p.1 == i) with
  | some p => p.2
  | none => defaultAnalysis

/-! ### Engagement ranking in `format_email_html` (src/digest.py lines 372-385)

Python's `sorted` is stable, and with `reverse=True` it yields the
descending order by key with equal-key elements in their original order.
That is exactly `List.insertionSort` with the reflexive descending
relation `rateRel` below (Mathlib's insertion sort is stable). -/

/-- `(vid_id, likes / views if views > 0 else 0)` for one video
(float division modelled as exact division in `ℚ`). -/
def engRate (v : Video) : ℚ :=
  if 0 < v.views then (v.likes : ℚ) / (v.views : ℚ) else 0

/-- Descending comparison on `(id, rate)` pairs used by
`sorted(engagement_rates, key=lambda x: x[1], reverse=True)`. -/
def rateRel (a b : Nat × ℚ) : Prop := b.2 ≤ a.2

instance : DecidableRel rateRel := fun a b =>
  inferInstanceAs (Decidable (b.2 ≤ a.2))

instance : IsTotal (Nat × ℚ) rateRel := ⟨fun a b => le_total b.2 a.2⟩

instance : IsTrans (Nat × ℚ) rateRel :=
  ⟨fun _ _ _ h₁ h₂ => le_trans h₂ h₁⟩

/-- The `engagement_rates` list (lines 373-380). -/
def engagementRates (videos : List Video) : List (Nat × ℚ) :=
  videos.map fun v => (v.id, engRate v)

/-- The `sorted_rates` list (line 383). -/
def sortedRates (videos : List Video) : List (Nat × ℚ) :=
  List.insertionSort rateRel (engagementRates videos)

/-- `must_watch_threshold = max(1, len(sorted_rates) // 5)` (line 384).
Python `//` on naturals is `Nat` division. -/
def mustWatchThreshold (n : Nat) : Nat := max 1 (n / 5)

/-- `must_watch_ids` (line 385), as the list of ids whose set is taken. -/
def mustWatchIds (videos : List Video) : List Nat :=
  ((sortedRates videos).take (mustWatchThreshold videos.length)).map Prod.fst

/-! ### The rendered document

`format_email_html` produces an HTML string; the claims are about the
semantic content it embeds, so the embedding returns that content as a
record: the theme text shown in the "This Week's Themes" box (line 495),
the per-video analysis record each card displays (lines 400-403), the
must-watch id set (line 385) and the video count (line 498). -/

structure EmailDoc where
  themeText : String
  mustWatch : List Nat
  cards : List (Nat × Analysis)
  videoCount : Nat
deriving DecidableEq

/-- Embedding of `format_email_html` (src/digest.py lines 352-509). -/
def formatEmailHtml (videos : List Video) (analysis : AnalysisResult) : EmailDoc :=
  { themeText := analysis.themes
    mustWatch := mustWatchIds videos
    cards := videos.map fun v => (v.id, lookupAnalysis analysis.videoAnalyses v.id)
    videoCount := videos.length }

/-! ### State commit (src/digest.py lines 662-666) -/

/-- The per-digest entry of `state.json`. -/
structure DigestState where
  lastRun : Option Int
  seenIds : List Nat
deriving DecidableEq

/-- Nat-`≤`, named so the required sort instances can be registered. -/
def natLeRel (a b : Nat) : Prop := a ≤ b

instance : DecidableRel natLeRel := fun a b =>
  inferInstanceAs (Decidable (a ≤ b))

instance : IsTotal Nat natLeRel := ⟨fun a b => Nat.le_total a b⟩

instance : IsTrans Nat natLeRel := ⟨fun _ _ _ h₁ h₂ => le_trans h₁ h₂⟩

instance : IsAntisymm Nat natLeRel := ⟨fun _ _ h₁ h₂ => Nat.le_antisymm h₁ h₂⟩

/-- Model of `list(s)` for a Python set `s` holding the elements of `l`:
the distinct elements in a canonical (sorted) enumeration.  The real
enumeration is hash order; both are functions of the set's contents only
and retain nothing about insertion recency
(`pySetAsList_eq_of_same_mem` below). -/
def pySetAsList (l : List Nat) : List Nat :=
  List.insertionSort natLeRel l.dedup

/-- Python `l[-n:]`: the last `min n (length l)` elements. -/
def lastN (n : Nat) (l : List α) : List α := l.drop (l.length - n)

/-- The committed dedup list,
`list(seen_ids | set(video_ids))[-500:]` (line 665), where `seen_ids`
was already converted to a set at line 591. -/
def commitSeenIds (seen fetched : List Nat) : List Nat :=
  lastN 500 (pySetAsList (seen ++ fetched))

/-- Modelled from the spec: the commit the spec describes instead keeps,
of `old_seen ∪ all_fetched_ids`, "the 500 most-recently-added
identifiers", evicting oldest-first — i.e. each id at its most recent
position (`List.dedup` keeps the last occurrence), truncated to the last
500.  Used only for comparison with `commitSeenIds`. -/
def commitSeenIdsSpec (seen fetched : List Nat) : List Nat :=
  lastN 500 (seen ++ fetched).dedup

/-! ### `run_digest` (src/digest.py lines 568-668)

External collaborators appear as inputs: `feeds` is the resolved channel
list (one entry per configured channel URL, `none` when
`extract_channel_id` failed), `details` the data API oracle,
`themeCall`/`videoCall` the Anthropic oracles, `recipients` the resolved
recipient list and `deliver` the SMTP outcome of `send_email` per
recipient.  Comment fetching and transcripts only feed prompt text and
are not modelled. -/

/-- What one invocation of `run_digest` did: its return value, the state
entry written (`none` = the `state[digest_id] = ...` assignment at lines
662-666 did not run), the pre-exclusion `video_ids` list of line 617,
the ids of the videos that survived the shorts filter, the rendered
document (`none` = an early `return False`), and how many `send_email`
calls were made and succeeded. -/
structure RunOutcome where
  success : Bool
  committed : Option DigestState
  selectedIds : List Nat
  keptIds : List Nat
  doc : Option EmailDoc
  sendAttempts : Nat
  sendSuccesses : Nat

/-- Embedding of `run_digest`.  `st` is `state.get(digest_id, {})` with
its defaults already applied (`seen_ids` default `[]`, line 591). -/
def runDigest (now : Int) (frequency : String)
    (feeds : List (Option (List FeedVideo)))
    (details : Nat → Option ApiItem)
    (hasKey : Bool) (themeCall : Option String) (videoCall : Nat → Option Analysis)
    (recipients : List String) (deliver : String → Bool)
    (st : DigestState) : RunOutcome :=
  let startDate := windowStart now frequency
  let allVideos := selectNew feeds startDate st.seenIds
  if allVideos.isEmpty then
    -- line 610: `if not all_videos: return False`
    { success := false, committed := none, selectedIds := [], keptIds := []
      doc := none, sendAttempts := 0, sendSuccesses := 0 }
  else
    let videoIds := allVideos.map FeedVideo.id
    let enriched := allVideos.map (enrichVideo details)
    let kept := filterShorts enriched
    if kept.isEmpty then
      -- line 635: `if not all_videos: return False` (after the filter)
      { success := false, committed := none, selectedIds := videoIds, keptIds := []
        doc := none, sendAttempts := 0, sendSuccesses := 0 }
    else
      let analysis := analyzeWithClaude hasKey themeCall videoCall kept
      let doc := formatEmailHtml kept analysis
      let succCount := (recipients.filter deliver).length
      let success := decide (0 < succCount)
      { success := success
        committed :=
          if success then
            some { lastRun := some now
                   seenIds := commitSeenIds st.seenIds videoIds }
          else none
        selectedIds := videoIds
        keptIds := kept.map Video.id
        doc := some doc
        sendAttempts := recipients.length
        sendSuccesses := succCount }

/-! ### Concrete scenarios used by counterexamples and witnesses -/

/-- The empty state entry `state.get(digest_id, {})` of a digest that
never ran. -/
def stEmpty : DigestState := { lastRun := none, seenIds := [] }

/-- A single fresh feed video. -/
def fv1 : FeedVideo := { id := 1, pubTime := 0, url := [] }

/-- A feed video published one hour after "now" (= 0). -/
def futureVid : FeedVideo := { id := 7, pubTime := 3600, url := [] }

/-- A feed video published 23 hours before "now" (= 0). -/
def recentVid : FeedVideo := { id := 8, pubTime := -(23 * 3600), url := [] }

/-- A feed video published 25 hours before "now" (= 0). -/
def staleVid : FeedVideo := { id := 9, pubTime := -(25 * 3600), url := [] }

/-- API data for a two-minute (non short-form) video. -/
def apiLong : ApiItem :=
  { viewCount := 10, likeCount := 2, commentCount := 0, duration := some "PT2M" }

/-- API data for a 30-second (short-form) video. -/
def apiShort : ApiItem :=
  { viewCount := 10, likeCount := 2, commentCount := 0, duration := some "PT30S" }

/-- API data for a two-minute video that nobody watched yet. -/
def apiNoViews : ApiItem :=
  { viewCount := 0, likeCount := 0, commentCount := 0, duration := some "PT2M" }

/-- An API response item carrying no `duration` field. -/
def apiNoDuration : ApiItem :=
  { viewCount := 0, likeCount := 0, commentCount := 0, duration := none }

/-- Detail oracle: every video is two minutes long. -/
def detailsAllLong : Nat → Option ApiItem := fun _ => some apiLong

/-- Detail oracle: every video is two minutes long with zero views. -/
def detailsNoViews : Nat → Option ApiItem := fun _ => some apiNoViews

/-- Detail oracle: every video is a 30-second short. -/
def detailsAllShort : Nat → Option ApiItem := fun _ => some apiShort

/-- Detail oracle: video 1 is a 30-second short, the rest are long. -/
def detailsOneShort : Nat → Option ApiItem :=
  fun i => if i = 1 then some apiShort else some apiLong

/-- A fresh feed video with the given id. -/
def mkFv (i : Nat) : FeedVideo := { id := i, pubTime := 0, url := [] }

/-- A feed of 501 fresh videos with ids 1..501 — one more than the
`seen_ids` cap. -/
def feedBig : List FeedVideo := (List.range' 1 501).map mkFv

/-- The 500 identifiers 2..501 — what the canonical set enumeration of
ids 1..501 truncated to its last 500 retains. -/
def keptAfterBig : List Nat := List.range' 2 500

/-- First run on the big feed (one recipient, delivery succeeds). -/
def runBig1 : RunOutcome :=
  runDigest 0 "daily" [some feedBig] detailsAllLong true none (fun _ => none)
    ["a"] (fun _ => true) stEmpty

/-- An immediate second run on the big feed with unchanged source data,
from the state entry the first run committed. -/
def runBig2 : RunOutcome :=
  runDigest 0 "daily" [some feedBig] detailsAllLong true none (fun _ => none)
    ["a"] (fun _ => true) { lastRun := some 0, seenIds := keptAfterBig }

/-- First run on the big feed where video 1 is a short (so it is
selected, then excluded from the email). -/
def runShort1 : RunOutcome :=
  runDigest 0 "daily" [some feedBig] detailsOneShort true none (fun _ => none)
    ["a"] (fun _ => true) stEmpty

/-- An immediate second run after `runShort1`, with unchanged source
data, from the state entry `runShort1` committed. -/
def runShort2 : RunOutcome :=
  runDigest 0 "daily" [some feedBig] detailsOneShort true none (fun _ => none)
    ["a"] (fun _ => true) { lastRun := some 0, seenIds := keptAfterBig }

/-- A stored `seen_ids` history: id 1000 was added first (oldest), then
ids 1..499 — 500 entries. -/
def seenOldFirst : List Nat := 1000 :: List.range' 1 499

/-- The same 500 identifiers with a different history: ids 1..499 first,
id 1000 added last (most recent). -/
def seenOldLast : List Nat := List.range' 1 499 ++ [1000]

/-- Six enriched videos with ids 1..6 (views 0, so every engagement rate
is 0). -/
def sixVideos : List Video :=
  (List.range 6).map fun i =>
    { id := i + 1, pubTime := 0, url := [], views := 0, likes := i, isShort := false }

/-- Ten enriched videos with ids 1..10. -/
def tenVideos : List Video :=
  (List.range 10).map fun i =>
    { id := i + 1, pubTime := 0, url := [], views := 0, likes := i, isShort := false }

/-- The document a one-video digest renders when every generation call
fails (used by the C8 witness). -/
def docOneDefault : EmailDoc :=
  { themeText := "Theme analysis unavailable", mustWatch := [1]
    cards := [(1, defaultAnalysis)], videoCount := 1 }

/-! ## Supporting lemmas -/

/-! ### Duration parsing -/

theorem parseDurationChars_PT (rest : List Char) :
    parseDurationChars ('P' :: 'T' :: rest) =
      (let ph := parseGroup 'H' rest
       let pm := parseGroup 'M' ph.2
       let ps := parseGroup 'S' pm.2
       (ph.1.getD 0, pm.1.getD 0, ps.1.getD 0)) := rfl

theorem digitChar_spec {d : Nat} (h : d < 10) :
    (Char.ofNat (48 + d)).isDigit = true ∧ (Char.ofNat (48 + d)).toNat - 48 = d := by
  interval_cases d <;> exact ⟨by decide, by decide⟩

theorem natChars_ne_nil (n : Nat) : natChars n ≠ [] := by
  unfold natChars
  by_cases h : n = 0
  · rw [if_pos h]; simp
  · rw [if_neg h]
    simp only [ne_eq, List.map_eq_nil_iff, List.reverse_eq_nil_iff]
    exact Nat.digits_ne_nil_iff_ne_zero.mpr h

theorem natChars_digits (n : Nat) : ∀ c ∈ natChars n, c.isDigit = true := by
  intro c hc
  unfold natChars at hc
  by_cases h : n = 0
  · rw [if_pos h] at hc; simp at hc; subst hc; decide
  · rw [if_neg h] at hc
    simp only [List.mem_map, List.mem_reverse] at hc
    obtain ⟨d, hd, rfl⟩ := hc
    exact (digitChar_spec (Nat.digits_lt_base (by norm_num) hd)).1

theorem takeDigits_append (ds rest : List Char)
    (hds : ∀ c ∈ ds, c.isDigit = true)
    (hrest : ∀ c r, rest = c :: r → c.isDigit = false) :
    takeDigits (ds ++ rest) = (ds, rest) := by
  induction ds with
  | nil =>
    simp only [List.nil_append]
    cases rest with
    | nil => rfl
    | cons c r =>
      unfold takeDigits
      rw [if_neg (by simp [hrest c r rfl])]
  | cons c cs ih =>
    have hc : c.isDigit = true := hds c (by simp)
    unfold takeDigits
    simp only [List.cons_append]
    rw [if_pos hc, ih (fun d hd => hds d (by simp [hd]))]

theorem foldl_digits (L : List Nat) (hL : ∀ d ∈ L, d < 10) (acc : Nat) :
    List.foldl (fun a c => 10 * a + (c.toNat - 48)) acc
      (L.reverse.map fun d => Char.ofNat (48 + d)) =
      acc * 10 ^ L.length + Nat.ofDigits 10 L := by
  induction L generalizing acc with
  | nil => simp [Nat.ofDigits_nil]
  | cons d L ih =>
    have hd : d < 10 := hL d (by simp)
    rw [List.reverse_cons, List.map_append, List.foldl_append,
      ih (fun e he => hL e (by simp [he]))]
    simp only [List.map_cons, List.map_nil, List.foldl_cons, List.foldl_nil,
      Nat.ofDigits_cons, (digitChar_spec hd).2, List.length_cons]
    ring

theorem digitsToNat_natChars (n : Nat) : digitsToNat (natChars n) = n := by
  by_cases h : n = 0
  · subst h; decide
  · unfold natChars digitsToNat
    rw [if_neg h, foldl_digits _ (fun d hd => Nat.digits_lt_base (by norm_num) hd) 0]
    simp [Nat.ofDigits_digits]

theorem parseGroup_natChars (marker : Char) (hm : marker.isDigit = false)
    (n : Nat) (rest : List Char) :
    parseGroup marker (natChars n ++ marker :: rest) = (some n, rest) := by
  have ht : takeDigits (natChars n ++ marker :: rest) = (natChars n, marker :: rest) :=
    takeDigits_append _ _ (natChars_digits n)
      (fun c r hcr => by injection hcr with h1 _; rw [← h1]; exact hm)
  unfold parseGroup
  rw [ht]
  cases hn : natChars n with
  | nil => exact absurd hn (natChars_ne_nil n)
  | cons c cs =>
    simp only [if_pos rfl, if_true]
    rw [← hn, digitsToNat_natChars]

theorem parseDurationChars_durTok (h m s : Nat) :
    parseDurationChars (durTok h m s) = (h, m, s) := by
  unfold durTok
  rw [parseDurationChars_PT]
  simp only [parseGroup_natChars 'H' (by decide) h,
    parseGroup_natChars 'M' (by decide) m,
    parseGroup_natChars 'S' (by decide) s, Option.getD_some]

theorem listStartsWith_PT_ne (l : List Char)
    (h : listStartsWith ['P', 'T'] l = false) : ∀ rest, l ≠ 'P' :: 'T' :: rest := by
  intro rest hrest
  subst hrest
  simp [listStartsWith] at h

theorem parseDurationChars_not_PT (l : List Char)
    (h : ∀ rest, l ≠ 'P' :: 'T' :: rest) : parseDurationChars l = (0, 0, 0) := by
  unfold parseDurationChars
  split
  · rename_i rest
    exact absurd rfl (h rest)
  · rfl

end DigestPy

namespace DigestPy

/-! ### The committed seen-id list -/

theorem mem_pySetAsList {a : Nat} {l : List Nat} : a ∈ pySetAsList l ↔ a ∈ l := by
  unfold pySetAsList
  rw [(List.perm_insertionSort natLeRel l.dedup).mem_iff, List.mem_dedup]

theorem nodup_pySetAsList (l : List Nat) : (pySetAsList l).Nodup :=
  ((List.perm_insertionSort natLeRel l.dedup).nodup_iff).mpr (List.nodup_dedup l)

theorem sorted_pySetAsList (l : List Nat) : List.Sorted natLeRel (pySetAsList l) :=
  List.sorted_insertionSort natLeRel l.dedup

theorem length_pySetAsList (l : List Nat) : (pySetAsList l).length = l.dedup.length :=
  (List.perm_insertionSort natLeRel l.dedup).length_eq

/-- The enumeration of a Python set depends only on the set's contents:
all record of insertion order or recency is gone. -/
theorem pySetAsList_eq_of_same_mem (l₁ l₂ : List Nat) (h : ∀ a, a ∈ l₁ ↔ a ∈ l₂) :
    pySetAsList l₁ = pySetAsList l₂ := by
  apply List.eq_of_perm_of_sorted _ (sorted_pySetAsList l₁) (sorted_pySetAsList l₂)
  rw [List.perm_ext_iff_of_nodup (nodup_pySetAsList l₁) (nodup_pySetAsList l₂)]
  intro a
  rw [mem_pySetAsList, mem_pySetAsList]
  exact h a

theorem length_lastN (n : Nat) (l : List α) : (lastN n l).length ≤ n := by
  unfold lastN
  rw [List.length_drop]
  omega

theorem lastN_of_le {n : Nat} {l : List α} (h : l.length ≤ n) : lastN n l = l := by
  unfold lastN
  rw [Nat.sub_eq_zero_of_le h, List.drop_zero]

theorem length_commitSeenIds (seen fetched : List Nat) :
    (commitSeenIds seen fetched).length ≤ 500 :=
  length_lastN _ _

/-- Below the cap nothing is truncated: the committed list holds exactly
the union. -/
theorem mem_commitSeenIds_of_le {seen fetched : List Nat}
    (h : (seen ++ fetched).dedup.length ≤ 500) {a : Nat} :
    a ∈ commitSeenIds seen fetched ↔ a ∈ seen ∨ a ∈ fetched := by
  unfold commitSeenIds
  rw [lastN_of_le (by rw [length_pySetAsList]; exact h), mem_pySetAsList, List.mem_append]

/-- Even above the cap, committed ids come from the union. -/
theorem mem_of_mem_commitSeenIds {seen fetched : List Nat} {a : Nat}
    (h : a ∈ commitSeenIds seen fetched) : a ∈ seen ∨ a ∈ fetched := by
  unfold commitSeenIds lastN at h
  rw [← List.mem_append]
  exact mem_pySetAsList.mp (List.mem_of_mem_drop h)

/-! ### Selection -/

theorem mem_selectNew {feeds : List (Option (List FeedVideo))} {startDate : Int}
    {seen : List Nat} {v : FeedVideo} :
    v ∈ selectNew feeds startDate seen ↔
      v ∈ (feeds.filterMap id).flatten ∧ startDate ≤ v.pubTime ∧ v.id ∉ seen := by
  unfold selectNew
  rw [List.mem_filter]
  simp [and_assoc]

theorem not_mem_selectNew_of_mem_seen {feeds : List (Option (List FeedVideo))}
    {startDate : Int} {seen : List Nat} {v : FeedVideo}
    (h : v.id ∈ seen) : v ∉ selectNew feeds startDate seen := by
  rw [mem_selectNew]
  tauto

/-! ### Branch equations for `runDigest` -/

theorem runDigest_sel_empty {now frequency feeds details hasKey themeCall videoCall
    recipients deliver st}
    (h : selectNew feeds (windowStart now frequency) st.seenIds = []) :
    runDigest now frequency feeds details hasKey themeCall videoCall recipients deliver st =
      { success := false, committed := none, selectedIds := [], keptIds := []
        doc := none, sendAttempts := 0, sendSuccesses := 0 } := by
  unfold runDigest
  simp [h]

theorem runDigest_kept_empty {now frequency feeds details hasKey themeCall videoCall
    recipients deliver st}
    (h : filterShorts ((selectNew feeds (windowStart now frequency) st.seenIds).map
          (enrichVideo details)) = []) :
    runDigest now frequency feeds details hasKey themeCall videoCall recipients deliver st =
      { success := false, committed := none
        selectedIds := (selectNew feeds (windowStart now frequency) st.seenIds).map FeedVideo.id
        keptIds := [], doc := none, sendAttempts := 0, sendSuccesses := 0 } := by
  by_cases hsel : selectNew feeds (windowStart now frequency) st.seenIds = []
  · rw [runDigest_sel_empty hsel, hsel]
    rfl
  · unfold runDigest
    simp [hsel, h, List.isEmpty_iff]

theorem runDigest_main {now frequency feeds details hasKey themeCall videoCall
    recipients deliver st}
    (hkept : filterShorts ((selectNew feeds (windowStart now frequency) st.seenIds).map
          (enrichVideo details)) ≠ []) :
    runDigest now frequency feeds details hasKey themeCall videoCall recipients deliver st =
      { success := decide (0 < (recipients.filter deliver).length)
        committed :=
          if 0 < (recipients.filter deliver).length then
            some { lastRun := some now
                   seenIds := commitSeenIds st.seenIds
                     ((selectNew feeds (windowStart now frequency) st.seenIds).map FeedVideo.id) }
          else none
        selectedIds := (selectNew feeds (windowStart now frequency) st.seenIds).map FeedVideo.id
        keptIds := (filterShorts ((selectNew feeds (windowStart now frequency) st.seenIds).map
          (enrichVideo details))).map Video.id
        doc := some (formatEmailHtml
          (filterShorts ((selectNew feeds (windowStart now frequency) st.seenIds).map
            (enrichVideo details)))
          (analyzeWithClaude hasKey themeCall videoCall
            (filterShorts ((selectNew feeds (windowStart now frequency) st.seenIds).map
              (enrichVideo details)))))
        sendAttempts := recipients.length
        sendSuccesses := (recipients.filter deliver).length } := by
  have hsel : selectNew feeds (windowStart now frequency) st.seenIds ≠ [] := by
    intro h0
    apply hkept
    rw [h0]
    rfl
  unfold runDigest
  simp [hsel, hkept, List.isEmpty_iff]

/-! ### Stability and dominance of the engagement ranking -/

theorem filter_rate_orderedInsert (q : ℚ) (x : Nat × ℚ) (m : List (Nat × ℚ)) :
    (List.orderedInsert rateRel x m).filter (fun p => decide (p.2 = q)) =
      if x.2 = q then x :: m.filter (fun p => decide (p.2 = q))
      else m.filter (fun p => decide (p.2 = q)) := by
  induction m with
  | nil =>
    by_cases hx : x.2 = q <;> simp [List.orderedInsert, List.filter, hx]
  | cons b m ih =>
    unfold List.orderedInsert
    by_cases hxb : rateRel x b
    · rw [if_pos hxb]
      by_cases hx : x.2 = q <;> by_cases hb : b.2 = q <;>
        simp [List.filter_cons, hx, hb]
    · rw [if_neg hxb]
      have hlt : x.2 < b.2 := by
        unfold rateRel at hxb
        exact lt_of_not_le hxb
      by_cases hb : b.2 = q
      · have hx : ¬ x.2 = q := by
          rw [← hb]
          exact ne_of_lt hlt
        simp [List.filter_cons, hb, hx, ih]
      · simp [List.filter_cons, hb, ih]

theorem filter_rate_insertionSort (q : ℚ) (l : List (Nat × ℚ)) :
    (List.insertionSort rateRel l).filter (fun p => decide (p.2 = q)) =
      l.filter (fun p => decide (p.2 = q)) := by
  induction l with
  | nil => rfl
  | cons x l ih =>
    unfold List.insertionSort
    rw [filter_rate_orderedInsert, List.filter_cons]
    by_cases hx : x.2 = q <;> simp [hx, ih]

theorem map_fst_engagementRates (videos : List Video) :
    (engagementRates videos).map Prod.fst = videos.map Video.id := by
  unfold engagementRates
  rw [List.map_map]
  rfl

theorem sortedRates_perm (videos : List Video) :
    (sortedRates videos).Perm (engagementRates videos) :=
  List.perm_insertionSort rateRel (engagementRates videos)

theorem length_sortedRates (videos : List Video) :
    (sortedRates videos).length = videos.length := by
  rw [(sortedRates_perm videos).length_eq]
  unfold engagementRates
  rw [List.length_map]

theorem mustWatchThreshold_le {n : Nat} (h : 1 ≤ n) : mustWatchThreshold n ≤ n := by
  unfold mustWatchThreshold
  exact max_le h (Nat.div_le_self n 5)

theorem mustWatch_card {videos : List Video} (hne : videos ≠ [])
    (hnd : (videos.map Video.id).Nodup) :
    (mustWatchIds videos).toFinset.card = max 1 (videos.length / 5) := by
  have hn : 1 ≤ videos.length := List.length_pos.mpr hne
  have hperm : ((sortedRates videos).map Prod.fst).Perm (videos.map Video.id) := by
    rw [← map_fst_engagementRates]
    exact (sortedRates_perm videos).map Prod.fst
  have hnds : ((sortedRates videos).map Prod.fst).Nodup := hperm.nodup_iff.mpr hnd
  have hmw : mustWatchIds videos =
      ((sortedRates videos).map Prod.fst).take (mustWatchThreshold videos.length) := by
    unfold mustWatchIds
    rw [List.map_take]
  have hndmw : (mustWatchIds videos).Nodup := by
    rw [hmw]
    exact List.Nodup.sublist (List.take_sublist _ _) hnds
  rw [List.toFinset_card_of_nodup hndmw, hmw, List.length_take, List.length_map,
    length_sortedRates]
  unfold mustWatchThreshold
  exact min_eq_left (mustWatchThreshold_le hn)

theorem pair_mem_engagementRates {videos : List Video} {v : Video} (hv : v ∈ videos) :
    (v.id, engRate v) ∈ engagementRates videos := by
  unfold engagementRates
  exact List.mem_map.mpr ⟨v, hv, rfl⟩

theorem mustWatch_dominant {videos : List Video}
    (hnd : (videos.map Video.id).Nodup) :
    ∀ v ∈ videos, ∀ w ∈ videos, v.id ∈ mustWatchIds videos →
      w.id ∉ mustWatchIds videos → engRate w ≤ engRate v := by
  intro v hv w hw hvin hwout
  set k := mustWatchThreshold videos.length with hk
  set sr := sortedRates videos with hsr
  have hsorted : List.Sorted rateRel sr := List.sorted_insertionSort rateRel _
  have hsplit : sr.take k ++ sr.drop k = sr := List.take_append_drop k sr
  have hpair : ∀ a ∈ sr.take k, ∀ b ∈ sr.drop k, rateRel a b := by
    have := hsorted
    rw [← hsplit] at this
    exact (List.pairwise_append.mp this).2.2
  -- the pair of v sits in the taken prefix
  obtain ⟨p, hpk, hp1⟩ := List.mem_map.mp hvin
  have hpsr : p ∈ sr := (List.take_sublist k sr).mem hpk
  have hpeng : p ∈ engagementRates videos := (sortedRates_perm videos).mem_iff.mp hpsr
  obtain ⟨u, hu, hup⟩ := List.mem_map.mp hpeng
  have huv : u = v := by
    apply List.inj_on_of_nodup_map hnd hu hv
    rw [show Video.id u = p.1 by rw [← hup]] at *
    exact hp1
  -- the pair of w sits in the dropped suffix
  have hwpair : (w.id, engRate w) ∈ sr := (sortedRates_perm videos).mem_iff.mpr
    (pair_mem_engagementRates hw)
  have hwdrop : (w.id, engRate w) ∈ sr.drop k := by
    rcases (List.mem_append.mp (by rw [hsplit]; exact hwpair)) with hin | hout
    · exact absurd (List.mem_map.mpr ⟨(w.id, engRate w), hin, rfl⟩) hwout
    · exact hout
  have := hpair p hpk (w.id, engRate w) hwdrop
  unfold rateRel at this
  have hp2 : p.2 = engRate v := by
    rw [← hup, huv]
  rw [hp2] at this
  exact this

/-! ### Default analysis on failed generation calls -/

theorem lookupAnalysis_default {themeCall : Option String}
    {videoCall : Nat → Option Analysis} {videos : List Video} {i : Nat}
    (h : videoCall i = none) :
    lookupAnalysis (analyzeWithClaude true themeCall videoCall videos).videoAnalyses i =
      defaultAnalysis := by
  unfold analyzeWithClaude lookupAnalysis
  simp only [Bool.not_true, Bool.false_eq_true, if_false]
  cases hf : (List.reverse (videos.map fun v =>
      (v.id, (videoCall v.id).getD defaultAnalysis))).find? (fun p => p.1 == i) with
  | none => rfl
  | some p =>
    have hp := List.find?_some hf
    have hmem := List.mem_of_find?_eq_some hf
    rw [List.mem_reverse, List.mem_map] at hmem
    obtain ⟨v, hv, rfl⟩ := hmem
    have hvi : v.id = i := by simpa using hp
    simp [hvi, h]

/-! ### Branch structure of one run -/

theorem runDigest_committed_some {now : Int} {frequency : String}
    {feeds : List (Option (List FeedVideo))} {details : Nat → Option ApiItem}
    {hasKey : Bool} {themeCall : Option String} {videoCall : Nat → Option Analysis}
    {recipients : List String} {deliver : String → Bool} {st : DigestState}
    {st' : DigestState}
    (h : (runDigest now frequency feeds details hasKey themeCall videoCall recipients
      deliver st).committed = some st') :
    st' = { lastRun := some now
            seenIds := commitSeenIds st.seenIds
              ((selectNew feeds (windowStart now frequency) st.seenIds).map FeedVideo.id) }
    ∧ (runDigest now frequency feeds details hasKey themeCall videoCall recipients
        deliver st).selectedIds =
        (selectNew feeds (windowStart now frequency) st.seenIds).map FeedVideo.id := by
  by_cases hkept : filterShorts ((selectNew feeds (windowStart now frequency)
      st.seenIds).map (enrichVideo details)) = []
  · rw [runDigest_kept_empty hkept] at h
    exact absurd h (by simp)
  · rw [runDigest_main hkept] at h ⊢
    by_cases hsucc : 0 < (recipients.filter deliver).length
    · rw [if_pos hsucc] at h
      injection h with h'
      exact ⟨h'.symm, rfl⟩
    · rw [if_neg hsucc] at h
      exact absurd h (by simp)

/-! ### Symbolic evaluation of the 501-video scenarios -/

theorem pySetAsList_eq_self {l : List Nat} (hnd : l.Nodup)
    (hs : List.Sorted natLeRel l) : pySetAsList l = l := by
  unfold pySetAsList
  rw [List.Nodup.dedup hnd, List.Sorted.insertionSort_eq hs]

theorem sorted_natLe_range' (s n : Nat) :
    List.Sorted natLeRel (List.range' s n) :=
  (List.pairwise_lt_range' s n).imp (fun h => le_of_lt h)

theorem sorted_natLe_range'_append {s n b : Nat} (hb : s + n ≤ b) :
    List.Sorted natLeRel (List.range' s n ++ [b]) := by
  refine List.pairwise_append.mpr ⟨sorted_natLe_range' s n, List.pairwise_singleton _ _, ?_⟩
  intro a ha c hc
  rw [List.mem_singleton] at hc
  subst hc
  have := (List.mem_range'_1.mp ha).2
  unfold natLeRel
  omega

theorem nodup_range'_append {s n b : Nat} (hb : s + n ≤ b) :
    (List.range' s n ++ [b]).Nodup := by
  rw [List.nodup_append]
  refine ⟨List.nodup_range' s n, List.nodup_singleton b, ?_⟩
  intro a ha hc
  rw [List.mem_singleton] at hc
  subst hc
  have := (List.mem_range'_1.mp ha).2
  omega

theorem selectNew_feedBig_fresh :
    selectNew [some feedBig] (windowStart 0 "daily") stEmpty.seenIds = feedBig := by
  unfold selectNew
  show List.filter _ (feedBig ++ []) = feedBig
  rw [List.append_nil, List.filter_eq_self]
  intro v hv
  obtain ⟨i, hi, rfl⟩ := List.mem_map.mp hv
  rw [Bool.and_eq_true]
  constructor
  · show decide (windowStart 0 "daily" ≤ (0 : Int)) = true
    decide
  · show (!decide (i ∈ ([] : List Nat))) = true
    rw [decide_eq_false (List.not_mem_nil i)]
    rfl

theorem feedBig_ids : feedBig.map FeedVideo.id = List.range' 1 501 := by
  unfold feedBig
  rw [List.map_map]
  exact List.map_id' _

theorem commitSeenIds_big :
    commitSeenIds stEmpty.seenIds (List.range' 1 501) = keptAfterBig := by
  unfold commitSeenIds
  rw [show stEmpty.seenIds ++ List.range' 1 501 = List.range' 1 501 from rfl]
  rw [pySetAsList_eq_self (List.nodup_range' 1 501) (sorted_natLe_range' 1 501)]
  unfold lastN
  rw [List.length_range']
  rw [show (501 : Nat) - 500 = 1 from rfl]
  rw [show List.range' 1 501 = 1 :: List.range' 2 500 from List.range'_succ 1 500 1]
  rw [List.drop_succ_cons, List.drop_zero]
  rfl

theorem keep_bool_of_long {det : Nat → Option ApiItem} {i : Nat}
    (hdet : det i = some apiLong) :
    (!(enrichVideo det (mkFv i)).isShort
      && !listHasSub shortsMark (enrichVideo det (mkFv i)).url) = true := by
  unfold enrichVideo mkFv
  rw [show det ({ id := i, pubTime := 0, url := [] } : FeedVideo).id = some apiLong from hdet]
  show (!isShortVideo "PT2M" && !listHasSub shortsMark []) = true
  decide

theorem filterShorts_feedBig_long :
    filterShorts (feedBig.map (enrichVideo detailsAllLong)) =
      feedBig.map (enrichVideo detailsAllLong) := by
  unfold filterShorts
  rw [List.filter_eq_self]
  intro v hv
  unfold feedBig at hv
  rw [List.map_map] at hv
  obtain ⟨i, hi, rfl⟩ := List.mem_map.mp hv
  exact keep_bool_of_long rfl

theorem feedBig_cons : feedBig = mkFv 1 :: (List.range' 2 500).map mkFv := by
  unfold feedBig
  rw [show List.range' 1 501 = 1 :: List.range' 2 500 from List.range'_succ 1 500 1]
  rfl

theorem filterShorts_feedBig_oneShort :
    filterShorts (feedBig.map (enrichVideo detailsOneShort)) =
      ((List.range' 2 500).map mkFv).map (enrichVideo detailsOneShort) := by
  rw [feedBig_cons, List.map_cons]
  unfold filterShorts
  rw [List.filter_cons_of_neg ?head]
  case head =>
    show ¬ ((!(enrichVideo detailsOneShort (mkFv 1)).isShort
      && !listHasSub shortsMark (enrichVideo detailsOneShort (mkFv 1)).url) = true)
    decide
  rw [List.filter_eq_self]
  intro v hv
  rw [List.map_map] at hv
  obtain ⟨i, hi, rfl⟩ := List.mem_map.mp hv
  have hi2 := (List.mem_range'_1.mp hi).1
  refine keep_bool_of_long ?_
  unfold detailsOneShort
  rw [if_neg (by omega)]

theorem id_enrich (det : Nat → Option ApiItem) (fv : FeedVideo) :
    (enrichVideo det fv).id = fv.id := by
  unfold enrichVideo
  cases det fv.id <;> rfl

theorem ids_of_enriched (det : Nat → Option ApiItem) (l : List FeedVideo) :
    (l.map (enrichVideo det)).map Video.id = l.map FeedVideo.id := by
  rw [List.map_map]
  exact List.map_congr_left (fun fv _ => id_enrich det fv)

theorem runBig1_eval :
    runBig1.success = true
    ∧ runBig1.selectedIds = List.range' 1 501
    ∧ runBig1.committed = some { lastRun := some 0, seenIds := keptAfterBig } := by
  have hkept : filterShorts ((selectNew [some feedBig] (windowStart 0 "daily")
      stEmpty.seenIds).map (enrichVideo detailsAllLong)) ≠ [] := by
    rw [selectNew_feedBig_fresh, filterShorts_feedBig_long]
    simp [feedBig, List.map_eq_nil_iff, List.range'_eq_nil]
  unfold runBig1
  rw [runDigest_main hkept]
  refine ⟨by decide, ?_, ?_⟩
  · show (selectNew [some feedBig] (windowStart 0 "daily") stEmpty.seenIds).map
      FeedVideo.id = List.range' 1 501
    rw [selectNew_feedBig_fresh, feedBig_ids]
  · show (if 0 < ((["a"] : List String).filter (fun _ => true)).length then
        some ({ lastRun := some 0
                seenIds := commitSeenIds stEmpty.seenIds
                  ((selectNew [some feedBig] (windowStart 0 "daily")
                    stEmpty.seenIds).map FeedVideo.id) } : DigestState)
      else none) = some ({ lastRun := some 0, seenIds := keptAfterBig } : DigestState)
    rw [if_pos (by decide), selectNew_feedBig_fresh, feedBig_ids, commitSeenIds_big]

theorem selectNew_feedBig_second :
    selectNew [some feedBig] (windowStart 0 "daily") keptAfterBig = [mkFv 1] := by
  unfold selectNew
  show List.filter (fun v => decide (windowStart 0 "daily" ≤ v.pubTime)
    && !decide (v.id ∈ keptAfterBig)) (feedBig ++ []) = [mkFv 1]
  rw [List.append_nil, feedBig_cons]
  rw [List.filter_cons_of_pos ?pos]
  case pos =>
    show (decide (windowStart 0 "daily" ≤ (0 : Int))
      && !decide ((1 : Nat) ∈ keptAfterBig)) = true
    decide
  have hrest : List.filter (fun v => decide (windowStart 0 "daily" ≤ v.pubTime)
      && !decide (v.id ∈ keptAfterBig)) ((List.range' 2 500).map mkFv) = [] := by
    rw [List.filter_eq_nil_iff]
    intro v hv habs
    obtain ⟨i, hi, rfl⟩ := List.mem_map.mp hv
    have hi2 := List.mem_range'_1.mp hi
    rw [Bool.and_eq_true] at habs
    have hm := habs.2
    rw [Bool.not_eq_true', decide_eq_false_iff_not] at hm
    refine hm (List.mem_range'_1.mpr ?_)
    show 2 ≤ i ∧ i < 2 + 500
    omega
  rw [hrest]

theorem runBig2_selects_one : runBig2.selectedIds = [1] := by
  have hkept2 : filterShorts ((selectNew [some feedBig] (windowStart 0 "daily")
      ({ lastRun := some 0, seenIds := keptAfterBig } : DigestState).seenIds).map
        (enrichVideo detailsAllLong)) ≠ [] := by
    show filterShorts ((selectNew [some feedBig] (windowStart 0 "daily")
      keptAfterBig).map (enrichVideo detailsAllLong)) ≠ []
    rw [selectNew_feedBig_second]
    decide
  unfold runBig2
  rw [runDigest_main hkept2]
  show (selectNew [some feedBig] (windowStart 0 "daily") keptAfterBig).map
    FeedVideo.id = [1]
  rw [selectNew_feedBig_second]
  rfl

theorem runShort1_eval :
    runShort1.success = true
    ∧ runShort1.selectedIds = List.range' 1 501
    ∧ runShort1.keptIds = List.range' 2 500
    ∧ runShort1.committed = some { lastRun := some 0, seenIds := keptAfterBig } := by
  have hkept : filterShorts ((selectNew [some feedBig] (windowStart 0 "daily")
      stEmpty.seenIds).map (enrichVideo detailsOneShort)) ≠ [] := by
    rw [selectNew_feedBig_fresh, filterShorts_feedBig_oneShort]
    simp [List.map_eq_nil_iff, List.range'_eq_nil]
  unfold runShort1
  rw [runDigest_main hkept]
  refine ⟨by decide, ?_, ?_, ?_⟩
  · show (selectNew [some feedBig] (windowStart 0 "daily") stEmpty.seenIds).map
      FeedVideo.id = List.range' 1 501
    rw [selectNew_feedBig_fresh, feedBig_ids]
  · show (filterShorts ((selectNew [some feedBig] (windowStart 0 "daily")
      stEmpty.seenIds).map (enrichVideo detailsOneShort))).map Video.id = List.range' 2 500
    rw [selectNew_feedBig_fresh, filterShorts_feedBig_oneShort, ids_of_enriched,
      List.map_map]
    exact List.map_id' _
  · show (if 0 < ((["a"] : List String).filter (fun _ => true)).length then
        some ({ lastRun := some 0
                seenIds := commitSeenIds stEmpty.seenIds
                  ((selectNew [some feedBig] (windowStart 0 "daily")
                    stEmpty.seenIds).map FeedVideo.id) } : DigestState)
      else none) = some ({ lastRun := some 0, seenIds := keptAfterBig } : DigestState)
    rw [if_pos (by decide), selectNew_feedBig_fresh, feedBig_ids, commitSeenIds_big]

theorem runShort2_selects_one : runShort2.selectedIds = [1] := by
  have hkept2 : filterShorts ((selectNew [some feedBig] (windowStart 0 "daily")
      ({ lastRun := some 0, seenIds := keptAfterBig } : DigestState).seenIds).map
        (enrichVideo detailsOneShort)) = [] := by
    show filterShorts ((selectNew [some feedBig] (windowStart 0 "daily")
      keptAfterBig).map (enrichVideo detailsOneShort)) = []
    rw [selectNew_feedBig_second]
    decide
  unfold runShort2
  rw [runDigest_kept_empty hkept2]
  show (selectNew [some feedBig] (windowStart 0 "daily") keptAfterBig).map
    FeedVideo.id = [1]
  rw [selectNew_feedBig_second]
  rfl

/-! ### Symbolic evaluation of the eviction scenario -/

theorem union_oldFirst_mem :
    ∀ a, a ∈ seenOldFirst ++ [500] ↔ a ∈ List.range' 1 500 ++ [1000] := by
  intro a
  simp only [seenOldFirst, List.mem_append, List.mem_cons, List.mem_singleton,
    List.mem_range'_1, List.not_mem_nil, or_false]
  omega

theorem union_oldLast_mem :
    ∀ a, a ∈ seenOldLast ++ [500] ↔ a ∈ List.range' 1 500 ++ [1000] := by
  intro a
  simp only [seenOldLast, List.mem_append, List.mem_singleton, List.mem_range'_1,
    List.mem_cons, List.not_mem_nil, or_false]
  omega

theorem lastN_asc1000 :
    lastN 500 (List.range' 1 500 ++ [1000]) = List.range' 2 499 ++ [1000] := by
  unfold lastN
  have hlen : (List.range' 1 500 ++ [1000]).length = 501 := by
    rw [List.length_append, List.length_range']
    rfl
  rw [hlen, show (501 : Nat) - 500 = 1 from rfl,
    show List.range' 1 500 = 1 :: List.range' 2 499 from List.range'_succ 1 499 1,
    List.cons_append, List.drop_succ_cons, List.drop_zero]

theorem commit_oldFirst :
    commitSeenIds seenOldFirst [500] = List.range' 2 499 ++ [1000] := by
  unfold commitSeenIds
  rw [pySetAsList_eq_of_same_mem _ _ union_oldFirst_mem,
    pySetAsList_eq_self (nodup_range'_append (by omega)) (sorted_natLe_range'_append (by omega)),
    lastN_asc1000]

theorem commit_oldLast :
    commitSeenIds seenOldLast [500] = List.range' 2 499 ++ [1000] := by
  unfold commitSeenIds
  rw [pySetAsList_eq_of_same_mem _ _ union_oldLast_mem,
    pySetAsList_eq_self (nodup_range'_append (by omega)) (sorted_natLe_range'_append (by omega)),
    lastN_asc1000]

theorem specCommit_oldFirst :
    commitSeenIdsSpec seenOldFirst [500] = List.range' 1 500 := by
  unfold commitSeenIdsSpec
  have hnd : (seenOldFirst ++ [500]).Nodup := by
    show (1000 :: (List.range' 1 499 ++ [500])).Nodup
    rw [List.nodup_cons]
    constructor
    · simp only [List.mem_append, List.mem_singleton, List.mem_range'_1]
      omega
    · exact nodup_range'_append (by omega)
  rw [List.Nodup.dedup hnd]
  show lastN 500 (1000 :: (List.range' 1 499 ++ [500])) = List.range' 1 500
  unfold lastN
  have hlen : (1000 :: (List.range' 1 499 ++ [500])).length = 501 := by
    rw [List.length_cons, List.length_append, List.length_range']
    rfl
  rw [hlen, show (501 : Nat) - 500 = 1 from rfl, List.drop_succ_cons, List.drop_zero]
  rw [show (500 : Nat) = 1 + 1 * 499 from rfl]
  exact (List.range'_concat 1 499).symm

theorem specCommit_oldLast :
    commitSeenIdsSpec seenOldLast [500] = (List.range' 2 498 ++ [1000]) ++ [500] := by
  unfold commitSeenIdsSpec
  have hnd : (seenOldLast ++ [500]).Nodup := by
    show ((List.range' 1 499 ++ [1000]) ++ [500]).Nodup
    rw [List.nodup_append]
    refine ⟨nodup_range'_append (by omega), List.nodup_singleton _, ?_⟩
    intro a ha hc
    rw [List.mem_singleton] at hc
    subst hc
    rw [List.mem_append, List.mem_singleton, List.mem_range'_1] at ha
    omega
  rw [List.Nodup.dedup hnd]
  show lastN 500 ((List.range' 1 499 ++ [1000]) ++ [500]) =
    (List.range' 2 498 ++ [1000]) ++ [500]
  unfold lastN
  have hlen : ((List.range' 1 499 ++ [1000]) ++ [500]).length = 501 := by
    rw [List.length_append, List.length_append, List.length_range']
    rfl
  rw [hlen, show (501 : Nat) - 500 = 1 from rfl,
    show List.range' 1 499 = 1 :: List.range' 2 498 from List.range'_succ 1 498 1,
    List.cons_append, List.cons_append, List.drop_succ_cons, List.drop_zero]

/-! ## Claims

One theorem per claim of the specification review, with witnesses for the
theorems that carry hypotheses and counterexamples where the code departs
from the claim as stated. -/

/-- C1 (amended): an item identifier currently in `seen_ids` is never
selected in a run using that state; and provided the union of the stored
`seen_ids` and the freshly fetched ids has at most 500 distinct elements
(so the cap truncation of line 665 evicts nothing), a successful run
commits every fetched id and an immediate second run with unchanged
source data selects zero new items.  (As stated the claim is false: when
the union exceeds the cap, the truncation can evict ids — see
`seen_ids_reselected_cex`.) -/
theorem seen_ids_never_reselected_below_cap :
    (∀ (feeds : List (Option (List FeedVideo))) (startDate : Int) (seen : List Nat)
      (v : FeedVideo), v.id ∈ seen → v ∉ selectNew feeds startDate seen)
    ∧ (∀ (now : Int) (frequency : String) (feeds : List (Option (List FeedVideo)))
      (details : Nat → Option ApiItem) (hasKey : Bool) (themeCall : Option String)
      (videoCall : Nat → Option Analysis) (recipients : List String)
      (deliver : String → Bool) (st st' : DigestState),
      (runDigest now frequency feeds details hasKey themeCall videoCall recipients
        deliver st).committed = some st' →
      (st.seenIds ++ (selectNew feeds (windowStart now frequency) st.seenIds).map
        FeedVideo.id).dedup.length ≤ 500 →
      (runDigest now frequency feeds details hasKey themeCall videoCall recipients
        deliver st').selectedIds = []) := by
  constructor
  · exact fun feeds startDate seen v hv => not_mem_selectNew_of_mem_seen hv
  · intro now frequency feeds details hasKey themeCall videoCall recipients deliver st st' hc hle
    obtain ⟨hst, -⟩ := runDigest_committed_some hc
    subst hst
    have hsel2 : selectNew feeds (windowStart now frequency)
        (commitSeenIds st.seenIds ((selectNew feeds (windowStart now frequency)
          st.seenIds).map FeedVideo.id)) = [] := by
      unfold selectNew
      rw [List.filter_eq_nil_iff]
      intro v hv
      simp only [Bool.and_eq_true, decide_eq_true_eq, Bool.not_eq_true',
        decide_eq_false_iff_not, not_and, not_not]
      intro hpub
      by_cases hseen : v.id ∈ st.seenIds
      · exact (mem_commitSeenIds_of_le hle).mpr (Or.inl hseen)
      · refine (mem_commitSeenIds_of_le hle).mpr (Or.inr ?_)
        exact List.mem_map.mpr ⟨v, mem_selectNew.mpr ⟨hv, hpub, hseen⟩, rfl⟩
    exact congrArg RunOutcome.selectedIds
      (@runDigest_sel_empty now frequency feeds details hasKey themeCall videoCall
        recipients deliver ⟨some now, commitSeenIds st.seenIds
          ((selectNew feeds (windowStart now frequency) st.seenIds).map FeedVideo.id)⟩
        hsel2)

/-- Witness for `seen_ids_never_reselected_below_cap`: a one-video digest
whose run succeeds; the id is committed and the immediate second run
selects nothing. -/
theorem seen_ids_never_reselected_below_cap_witness :
    (fv1.id ∈ [1] ∧ fv1 ∉ selectNew [some [fv1]] (windowStart 0 "daily") [1])
    ∧ ((runDigest 0 "daily" [some [fv1]] detailsAllLong true none (fun _ => none)
        ["a"] (fun _ => true) stEmpty).committed =
          some { lastRun := some 0, seenIds := [1] }
      ∧ (stEmpty.seenIds ++ (selectNew [some [fv1]] (windowStart 0 "daily")
          stEmpty.seenIds).map FeedVideo.id).dedup.length ≤ 500
      ∧ (runDigest 0 "daily" [some [fv1]] detailsAllLong true none (fun _ => none)
          ["a"] (fun _ => true) { lastRun := some 0, seenIds := [1] }).selectedIds = []) :=
  ⟨⟨by decide, seen_ids_never_reselected_below_cap.1 [some [fv1]] (windowStart 0 "daily")
      [1] fv1 (by decide)⟩,
    by decide, by decide,
    seen_ids_never_reselected_below_cap.2 0 "daily" [some [fv1]] detailsAllLong true none
      (fun _ => none) ["a"] (fun _ => true) stEmpty { lastRun := some 0, seenIds := [1] }
      (by decide) (by decide)⟩

/-- C1 counterexample: with 501 fresh in-window videos and one successful
recipient, the first run succeeds but the cap truncation of
`list(seen_ids | set(video_ids))[-500:]` drops id 1, so an immediate
second run with unchanged source data selects it again — the claim's
"zero new items on the second run" is violated, and an id that was in
`seen_ids` (it was committed as part of the union) is re-selected. -/
theorem seen_ids_reselected_cex :
    runBig1.success = true
    ∧ 1 ∈ runBig1.selectedIds
    ∧ runBig1.committed = some { lastRun := some 0, seenIds := keptAfterBig }
    ∧ 1 ∉ keptAfterBig
    ∧ runBig2.selectedIds = [1] := by
  obtain ⟨h1, h2, h3⟩ := runBig1_eval
  refine ⟨h1, ?_, h3, ?_, runBig2_selects_one⟩
  · rw [h2]
    exact List.mem_range'_1.mpr (by omega)
  · intro h
    have := List.mem_range'_1.mp h
    omega

/-- C2: the per-digest state entry is assigned iff the run is marked
successful, the run is successful iff at least one of the per-recipient
deliveries succeeded, deliveries are counted over all recipients
independently (every recipient is attempted whenever the email stage is
reached), and on total delivery failure (or an early exit) nothing is
committed. -/
theorem run_commit_iff_delivery :
    ∀ (now : Int) (frequency : String) (feeds : List (Option (List FeedVideo)))
      (details : Nat → Option ApiItem) (hasKey : Bool) (themeCall : Option String)
      (videoCall : Nat → Option Analysis) (recipients : List String)
      (deliver : String → Bool) (st : DigestState),
      ((runDigest now frequency feeds details hasKey themeCall videoCall recipients
          deliver st).committed.isSome =
        (runDigest now frequency feeds details hasKey themeCall videoCall recipients
          deliver st).success)
      ∧ ((runDigest now frequency feeds details hasKey themeCall videoCall recipients
          deliver st).success =
        decide (0 < (runDigest now frequency feeds details hasKey themeCall videoCall
          recipients deliver st).sendSuccesses))
      ∧ ((runDigest now frequency feeds details hasKey themeCall videoCall recipients
          deliver st).sendSuccesses = (recipients.filter deliver).length ∨
        (runDigest now frequency feeds details hasKey themeCall videoCall recipients
          deliver st).sendSuccesses = 0)
      ∧ ((runDigest now frequency feeds details hasKey themeCall videoCall recipients
          deliver st).sendAttempts =
        if (runDigest now frequency feeds details hasKey themeCall videoCall recipients
          deliver st).doc.isSome then recipients.length else 0) := by
  intro now frequency feeds details hasKey themeCall videoCall recipients deliver st
  by_cases hkept : filterShorts ((selectNew feeds (windowStart now frequency)
      st.seenIds).map (enrichVideo details)) = []
  · rw [runDigest_kept_empty hkept]
    simp
  · rw [runDigest_main hkept]
    by_cases hsucc : 0 < (recipients.filter deliver).length <;>
      simp [hsucc]

/-- Witness for `run_commit_iff_delivery`: a run whose single delivery
fails commits nothing. -/
theorem run_commit_iff_delivery_witness :
    ((runDigest 0 "daily" [some [fv1]] detailsAllLong true none (fun _ => none)
        ["b"] (fun _ => false) stEmpty).committed.isSome =
      (runDigest 0 "daily" [some [fv1]] detailsAllLong true none (fun _ => none)
        ["b"] (fun _ => false) stEmpty).success)
    ∧ ((runDigest 0 "daily" [some [fv1]] detailsAllLong true none (fun _ => none)
        ["b"] (fun _ => false) stEmpty).success =
      decide (0 < (runDigest 0 "daily" [some [fv1]] detailsAllLong true none (fun _ => none)
        ["b"] (fun _ => false) stEmpty).sendSuccesses))
    ∧ ((runDigest 0 "daily" [some [fv1]] detailsAllLong true none (fun _ => none)
        ["b"] (fun _ => false) stEmpty).sendSuccesses =
        ((["b"] : List String).filter (fun _ => false)).length ∨
      (runDigest 0 "daily" [some [fv1]] detailsAllLong true none (fun _ => none)
        ["b"] (fun _ => false) stEmpty).sendSuccesses = 0)
    ∧ ((runDigest 0 "daily" [some [fv1]] detailsAllLong true none (fun _ => none)
        ["b"] (fun _ => false) stEmpty).sendAttempts =
      if (runDigest 0 "daily" [some [fv1]] detailsAllLong true none (fun _ => none)
        ["b"] (fun _ => false) stEmpty).doc.isSome then (["b"] : List String).length else 0) :=
  run_commit_iff_delivery 0 "daily" [some [fv1]] detailsAllLong true none (fun _ => none)
    ["b"] (fun _ => false) stEmpty

/-- C3 (amended): the selector keeps a fetched item iff its publish time
is at least `window_start` AND its id is not in the seen set — the source
has no upper bound on the publish time (line 607 only checks
`pub_date >= start_date`); `window_start` is now minus 1/3/7 days for
daily/biweekly/weekly.  The spec's daily examples hold: an item 23 hours
old is kept, one 25 hours old is not.  (The claim's half-open interval
`[window_start, window_end)` is refuted by `selection_no_upper_bound_cex`.) -/
theorem selection_window_membership :
    (∀ (feeds : List (Option (List FeedVideo))) (startDate : Int) (seen : List Nat)
      (v : FeedVideo),
      v ∈ selectNew feeds startDate seen ↔
        v ∈ (feeds.filterMap id).flatten ∧ startDate ≤ v.pubTime ∧ v.id ∉ seen)
    ∧ (∀ now : Int, windowStart now "daily" = now - 1 * 86400
        ∧ windowStart now "biweekly" = now - 3 * 86400
        ∧ windowStart now "weekly" = now - 7 * 86400)
    ∧ recentVid ∈ selectNew [some [recentVid, staleVid]] (windowStart 0 "daily") []
    ∧ staleVid ∉ selectNew [some [recentVid, staleVid]] (windowStart 0 "daily") [] := by
  have hd : windowDays "daily" = 1 := by decide
  have hb : windowDays "biweekly" = 3 := by decide
  have hw : windowDays "weekly" = 7 := by decide
  refine ⟨fun feeds startDate seen v => mem_selectNew, fun now => ⟨?_, ?_, ?_⟩,
    by decide, by decide⟩
  · unfold windowStart
    rw [hd]
    norm_num
  · unfold windowStart
    rw [hb]
    norm_num
  · unfold windowStart
    rw [hw]
    norm_num

/-- Witness for `selection_window_membership`: the membership
characterisation applied to a concrete in-window video. -/
theorem selection_window_membership_witness :
    (recentVid ∈ (([some [recentVid]] : List (Option (List FeedVideo))).filterMap id).flatten
      ∧ windowStart 0 "daily" ≤ recentVid.pubTime ∧ recentVid.id ∉ ([] : List Nat))
    ∧ recentVid ∈ selectNew [some [recentVid]] (windowStart 0 "daily") [] :=
  ⟨by decide,
    (selection_window_membership.1 [some [recentVid]] (windowStart 0 "daily") [] recentVid).mpr
      (by decide)⟩

/-- C3 counterexample: an unseen item published one hour AFTER "now"
(hence outside the claimed half-open window `[window_start, window_end)`,
whose upper end is "now") is nevertheless kept by the selector. -/
theorem selection_no_upper_bound_cex :
    futureVid ∈ selectNew [some [futureVid]] (windowStart 0 "daily") []
    ∧ ¬ (futureVid.pubTime < 0) := by
  refine ⟨by decide, by decide⟩

/-- C4: whenever a run assigns the digest's state entry, the committed
`seen_ids` list has length at most 500 (`[-500:]` at line 665). -/
theorem committed_seen_ids_le_cap :
    ∀ (now : Int) (frequency : String) (feeds : List (Option (List FeedVideo)))
      (details : Nat → Option ApiItem) (hasKey : Bool) (themeCall : Option String)
      (videoCall : Nat → Option Analysis) (recipients : List String)
      (deliver : String → Bool) (st st' : DigestState),
      (runDigest now frequency feeds details hasKey themeCall videoCall recipients
        deliver st).committed = some st' →
      st'.seenIds.length ≤ 500 := by
  intro now frequency feeds details hasKey themeCall videoCall recipients deliver st st' hc
  obtain ⟨hst, -⟩ := runDigest_committed_some hc
  subst hst
  exact length_commitSeenIds _ _

/-- Witness for `committed_seen_ids_le_cap` at a concrete committing run. -/
theorem committed_seen_ids_le_cap_witness :
    (runDigest 0 "daily" [some [fv1]] detailsAllLong true none (fun _ => none)
      ["a"] (fun _ => true) stEmpty).committed = some { lastRun := some 0, seenIds := [1] }
    ∧ ({ lastRun := some 0, seenIds := [1] } : DigestState).seenIds.length ≤ 500 :=
  ⟨by decide,
    committed_seen_ids_le_cap 0 "daily" [some [fv1]] detailsAllLong true none (fun _ => none)
      ["a"] (fun _ => true) stEmpty { lastRun := some 0, seenIds := [1] } (by decide)⟩

/-- C5 (code bug): the commit `list(seen_ids | set(video_ids))[-500:]`
truncates the enumeration of a Python set, which retains no insertion
recency (cf. `pySetAsList_eq_of_same_mem`), so "the 500 most-recently-added
identifiers remain, evicting oldest-first" fails.  Failing input: stored
`seen_ids` whose OLDEST entry is id 1000 followed by ids 1..499, with new
id 500 fetched.  The code commits the same list regardless of which entry
was oldest, keeps the oldest id 1000 and instead evicts id 1 — while the
spec-modelled most-recent-retained commit (`commitSeenIdsSpec`) keeps
id 1 and evicts id 1000 (and, for the reordered history `seenOldLast`,
retains id 1000, distinguishing the recency the code cannot see). -/
theorem commit_eviction_not_recency :
    commitSeenIds seenOldFirst [500] = commitSeenIds seenOldLast [500]
    ∧ commitSeenIds seenOldFirst [500] = List.range' 2 499 ++ [1000]
    ∧ commitSeenIdsSpec seenOldFirst [500] = List.range' 1 500
    ∧ 1000 ∈ commitSeenIds seenOldFirst [500]
    ∧ 1000 ∉ commitSeenIdsSpec seenOldFirst [500]
    ∧ 1 ∉ commitSeenIds seenOldFirst [500]
    ∧ 1 ∈ commitSeenIdsSpec seenOldFirst [500]
    ∧ 1000 ∈ commitSeenIdsSpec seenOldLast [500] := by
  refine ⟨commit_oldFirst.trans commit_oldLast.symm, commit_oldFirst, specCommit_oldFirst,
    ?_, ?_, ?_, ?_, ?_⟩
  · rw [commit_oldFirst]
    simp
  · rw [specCommit_oldFirst]
    intro h
    have := List.mem_range'_1.mp h
    omega
  · rw [commit_oldFirst]
    intro h
    rcases List.mem_append.mp h with h' | h'
    · have := List.mem_range'_1.mp h'
      omega
    · simp at h'
  · rw [specCommit_oldFirst]
    exact List.mem_range'_1.mpr (by omega)
  · rw [specCommit_oldLast]
    simp

/-- C6 (amended): engagement rate is likes/views when views are positive
and 0 otherwise; exactly `max 1 (n // 5)` items — Python floor division,
NOT `ceil(n/5)` as claimed (see `standout_count_cex`) — are flagged
must-watch; every flagged item's rate is at least every unflagged item's
rate; and the descending ranking is stable (within every rate class the
sorted order equals the original order). -/
theorem standout_ranking :
    ∀ videos : List Video, videos ≠ [] → (videos.map Video.id).Nodup →
      ((mustWatchIds videos).toFinset.card = max 1 (videos.length / 5)
      ∧ (∀ v ∈ videos, engRate v = if 0 < v.views then (v.likes : ℚ) / (v.views : ℚ) else 0)
      ∧ (∀ v ∈ videos, ∀ w ∈ videos, v.id ∈ mustWatchIds videos →
          w.id ∉ mustWatchIds videos → engRate w ≤ engRate v)
      ∧ (∀ q : ℚ, (sortedRates videos).filter (fun p => decide (p.2 = q)) =
          (engagementRates videos).filter (fun p => decide (p.2 = q)))) := by
  intro videos hne hnd
  exact ⟨mustWatch_card hne hnd, fun v _ => rfl, mustWatch_dominant hnd,
    fun q => filter_rate_insertionSort q _⟩

/-- Witness for `standout_ranking` at ten concrete videos (where the code
and the claim agree: `10 // 5 = ceil(10/5) = 2`). -/
theorem standout_ranking_witness :
    tenVideos ≠ []
    ∧ (tenVideos.map Video.id).Nodup
    ∧ ((mustWatchIds tenVideos).toFinset.card = max 1 (tenVideos.length / 5)
      ∧ (∀ v ∈ tenVideos, engRate v = if 0 < v.views then (v.likes : ℚ) / (v.views : ℚ) else 0)
      ∧ (∀ v ∈ tenVideos, ∀ w ∈ tenVideos, v.id ∈ mustWatchIds tenVideos →
          w.id ∉ mustWatchIds tenVideos → engRate w ≤ engRate v)
      ∧ (∀ q : ℚ, (sortedRates tenVideos).filter (fun p => decide (p.2 = q)) =
          (engagementRates tenVideos).filter (fun p => decide (p.2 = q)))) :=
  ⟨by decide, by decide, standout_ranking tenVideos (by decide) (by decide)⟩

/-- C6 counterexample: with six items the claim demands
`ceil(6/5) = 2` standout flags, but the code's `max(1, 6 // 5)` flags
exactly one. -/
theorem standout_count_cex :
    (6 + 5 - 1) / 5 = 2
    ∧ (mustWatchIds sixVideos).toFinset.card = 1
    ∧ (mustWatchIds sixVideos).toFinset.card ≠ 2 := by
  refine ⟨by decide, by decide, by decide⟩

/-- C7 (amended): a well-formed token `PT{h}H{m}M{s}S` parses to
`(h, m, s)`, the item is classified short-form iff
`h*3600 + m*60 + s < 60` (59 seconds short, 1 minute not), and an
unparseable token — one not starting with `PT`, including the `"PT0S"`
default used when the duration field is absent — parses to `(0, 0, 0)`
and is therefore classified SHORT, not "not-short" as the claim states
(see `short_form_default_cex`). -/
theorem short_form_classification :
    (∀ h m s : Nat,
      parseDuration (String.mk (durTok h m s)) = (h, m, s)
      ∧ isShortVideo (String.mk (durTok h m s)) = decide (h * 3600 + m * 60 + s < 60))
    ∧ (∀ str : String, listStartsWith ['P', 'T'] str.data = false →
        parseDuration str = (0, 0, 0) ∧ isShortVideo str = true)
    ∧ isShortVideo "PT59S" = true ∧ isShortVideo "PT1M0S" = false := by
  refine ⟨fun h m s => ?_, fun str hstr => ?_, by decide, by decide⟩
  · have hparse : parseDuration (String.mk (durTok h m s)) = (h, m, s) :=
      parseDurationChars_durTok h m s
    refine ⟨hparse, ?_⟩
    unfold isShortVideo
    rw [hparse]
    rfl
  · have hparse : parseDuration str = (0, 0, 0) :=
      parseDurationChars_not_PT str.data (listStartsWith_PT_ne str.data hstr)
    refine ⟨hparse, ?_⟩
    unfold isShortVideo
    rw [hparse]
    rfl

/-- Witness for `short_form_classification` at the token `PT0H0M59S` and
the unparseable string `"garbage"`. -/
theorem short_form_classification_witness :
    (parseDuration (String.mk (durTok 0 0 59)) = (0, 0, 59)
      ∧ isShortVideo (String.mk (durTok 0 0 59)) = decide (0 * 3600 + 0 * 60 + 59 < 60))
    ∧ (listStartsWith ['P', 'T'] ("garbage" : String).data = false
      ∧ (parseDuration "garbage" = (0, 0, 0) ∧ isShortVideo "garbage" = true)) :=
  ⟨short_form_classification.1 0 0 59,
    by decide, short_form_classification.2.1 "garbage" (by decide)⟩

/-- C7 counterexample: an API item with an absent duration field gets the
default token `"PT0S"` and is classified short-form (line 214), and an
unparseable token is classified short-form — the claim says both default
to not-short. -/
theorem short_form_default_cex :
    (detailOfApiItem apiNoDuration).isShort = true
    ∧ isShortVideo "garbage" = true := by
  refine ⟨by decide, by decide⟩

/-- C8: a per-item generation call that fails (or whose response yields
no parsable block) leaves that item's analysis at the closed-set defaults
(empty guests/topics, sentiment "unknown", category "Other", empty
summary); and with every call failing, any run that reaches the render
stage still produces a complete document whose theme text is the fixed
string "Theme analysis unavailable", every card carries the default
analysis, and delivery is still attempted to every recipient. -/
theorem generation_failure_defaults :
    (∀ (themeCall : Option String) (videoCall : Nat → Option Analysis)
      (videos : List Video) (i : Nat),
      videoCall i = none →
      lookupAnalysis (analyzeWithClaude true themeCall videoCall videos).videoAnalyses i =
        defaultAnalysis)
    ∧ (∀ (now : Int) (frequency : String) (feeds : List (Option (List FeedVideo)))
      (details : Nat → Option ApiItem) (recipients : List String)
      (deliver : String → Bool) (st : DigestState) (d : EmailDoc),
      (runDigest now frequency feeds details true none (fun _ => none) recipients
        deliver st).doc = some d →
      d.themeText = "Theme analysis unavailable"
      ∧ (∀ c ∈ d.cards, c.2 = defaultAnalysis)
      ∧ d.cards.length = d.videoCount
      ∧ (runDigest now frequency feeds details true none (fun _ => none) recipients
          deliver st).sendAttempts = recipients.length) := by
  constructor
  · exact fun themeCall videoCall videos i h => lookupAnalysis_default h
  · intro now frequency feeds details recipients deliver st d hd
    by_cases hkept : filterShorts ((selectNew feeds (windowStart now frequency)
        st.seenIds).map (enrichVideo details)) = []
    · rw [runDigest_kept_empty hkept] at hd
      exact absurd hd (by simp)
    · rw [runDigest_main hkept] at hd ⊢
      injection hd with hd'
      subst hd'
      refine ⟨rfl, ?_, ?_, rfl⟩
      · intro c hc
        unfold formatEmailHtml at hc
        obtain ⟨v, hv, rfl⟩ := List.mem_map.mp hc
        exact lookupAnalysis_default rfl
      · unfold formatEmailHtml
        rw [List.length_map]

/-- Witness for `generation_failure_defaults`: a one-video run with an
all-failing generation collaborator still renders and delivers. -/
theorem generation_failure_defaults_witness :
    lookupAnalysis (analyzeWithClaude true none (fun _ => none) []).videoAnalyses 0 =
      defaultAnalysis
    ∧ (runDigest 0 "daily" [some [fv1]] detailsNoViews true none (fun _ => none)
        ["a"] (fun _ => true) stEmpty).doc = some docOneDefault
    ∧ (docOneDefault.themeText = "Theme analysis unavailable"
      ∧ (∀ c ∈ docOneDefault.cards, c.2 = defaultAnalysis)
      ∧ docOneDefault.cards.length = docOneDefault.videoCount
      ∧ (runDigest 0 "daily" [some [fv1]] detailsNoViews true none (fun _ => none)
          ["a"] (fun _ => true) stEmpty).sendAttempts = (["a"] : List String).length) :=
  ⟨generation_failure_defaults.1 none (fun _ => none) [] 0 rfl, by decide,
    generation_failure_defaults.2 0 "daily" [some [fv1]] detailsNoViews ["a"]
      (fun _ => true) stEmpty docOneDefault (by decide)⟩

/-- C9: if the shorts exclusion empties the selected item set, the run
returns early: unsuccessful, nothing committed, no send attempted, no
document rendered. -/
theorem empty_after_short_filter_skips :
    ∀ (now : Int) (frequency : String) (feeds : List (Option (List FeedVideo)))
      (details : Nat → Option ApiItem) (hasKey : Bool) (themeCall : Option String)
      (videoCall : Nat → Option Analysis) (recipients : List String)
      (deliver : String → Bool) (st : DigestState),
      filterShorts ((selectNew feeds (windowStart now frequency) st.seenIds).map
        (enrichVideo details)) = [] →
      (runDigest now frequency feeds details hasKey themeCall videoCall recipients
          deliver st).success = false
      ∧ (runDigest now frequency feeds details hasKey themeCall videoCall recipients
          deliver st).committed = none
      ∧ (runDigest now frequency feeds details hasKey themeCall videoCall recipients
          deliver st).sendAttempts = 0
      ∧ (runDigest now frequency feeds details hasKey themeCall videoCall recipients
          deliver st).doc = none := by
  intro now frequency feeds details hasKey themeCall videoCall recipients deliver st h
  rw [runDigest_kept_empty h]
  exact ⟨rfl, rfl, rfl, rfl⟩

/-- Witness for `empty_after_short_filter_skips`: a digest whose only new
video is a 30-second short. -/
theorem empty_after_short_filter_skips_witness :
    filterShorts ((selectNew [some [fv1]] (windowStart 0 "daily") stEmpty.seenIds).map
      (enrichVideo detailsAllShort)) = []
    ∧ ((runDigest 0 "daily" [some [fv1]] detailsAllShort true none (fun _ => none)
        ["a"] (fun _ => true) stEmpty).success = false
      ∧ (runDigest 0 "daily" [some [fv1]] detailsAllShort true none (fun _ => none)
        ["a"] (fun _ => true) stEmpty).committed = none
      ∧ (runDigest 0 "daily" [some [fv1]] detailsAllShort true none (fun _ => none)
        ["a"] (fun _ => true) stEmpty).sendAttempts = 0
      ∧ (runDigest 0 "daily" [some [fv1]] detailsAllShort true none (fun _ => none)
        ["a"] (fun _ => true) stEmpty).doc = none) :=
  ⟨by decide,
    empty_after_short_filter_skips 0 "daily" [some [fv1]] detailsAllShort true none
      (fun _ => none) ["a"] (fun _ => true) stEmpty (by decide)⟩

/-- C10 (amended): on every committing run the recorded `video_ids` are
exactly the ids of ALL window/dedup-selected items — computed at line 617
before the shorts exclusion, so short-form items never delivered are
committed too; every committed id comes from the old seen set or that
list; below the cap every selected id is committed; and an id is
suppressed from any future selection for as long as it remains in
`seen_ids`.  (The claim's "permanently suppressed" is refuted by
`short_excluded_reselected_cex`: the cap truncation can evict such an id,
after which it is re-selected.) -/
theorem commit_includes_short_excluded :
    ∀ (now : Int) (frequency : String) (feeds : List (Option (List FeedVideo)))
      (details : Nat → Option ApiItem) (hasKey : Bool) (themeCall : Option String)
      (videoCall : Nat → Option Analysis) (recipients : List String)
      (deliver : String → Bool) (st st' : DigestState),
      (runDigest now frequency feeds details hasKey themeCall videoCall recipients
        deliver st).committed = some st' →
      ((runDigest now frequency feeds details hasKey themeCall videoCall recipients
          deliver st).selectedIds =
        (selectNew feeds (windowStart now frequency) st.seenIds).map FeedVideo.id
      ∧ (∀ a ∈ st'.seenIds, a ∈ st.seenIds ∨
          a ∈ (selectNew feeds (windowStart now frequency) st.seenIds).map FeedVideo.id)
      ∧ ((st.seenIds ++ (selectNew feeds (windowStart now frequency) st.seenIds).map
            FeedVideo.id).dedup.length ≤ 500 →
          ∀ v ∈ selectNew feeds (windowStart now frequency) st.seenIds,
            v.id ∈ st'.seenIds)
      ∧ (∀ (feeds₂ : List (Option (List FeedVideo))) (startDate₂ : Int) (w : FeedVideo),
          w.id ∈ st'.seenIds → w ∉ selectNew feeds₂ startDate₂ st'.seenIds)) := by
  intro now frequency feeds details hasKey themeCall videoCall recipients deliver st st' hc
  obtain ⟨hst, hsel⟩ := runDigest_committed_some hc
  subst hst
  refine ⟨hsel, ?_, ?_, ?_⟩
  · exact fun a ha => mem_of_mem_commitSeenIds ha
  · intro hle v hv
    exact (mem_commitSeenIds_of_le hle).mpr (Or.inr (List.mem_map.mpr ⟨v, hv, rfl⟩))
  · exact fun feeds₂ startDate₂ w hw => not_mem_selectNew_of_mem_seen hw

/-- Witness for `commit_includes_short_excluded` at a concrete committing
run with one successful delivery out of two recipients. -/
theorem commit_includes_short_excluded_witness :
    (runDigest 0 "daily" [some [fv1]] detailsAllLong true none (fun _ => none)
      ["b", "c"] (fun r => r = "b") stEmpty).committed =
        some { lastRun := some 0, seenIds := [1] }
    ∧ ((runDigest 0 "daily" [some [fv1]] detailsAllLong true none (fun _ => none)
        ["b", "c"] (fun r => r = "b") stEmpty).selectedIds =
          (selectNew [some [fv1]] (windowStart 0 "daily") stEmpty.seenIds).map FeedVideo.id
      ∧ (∀ a ∈ ({ lastRun := some 0, seenIds := [1] } : DigestState).seenIds,
          a ∈ stEmpty.seenIds ∨
          a ∈ (selectNew [some [fv1]] (windowStart 0 "daily") stEmpty.seenIds).map
            FeedVideo.id)
      ∧ ((stEmpty.seenIds ++ (selectNew [some [fv1]] (windowStart 0 "daily")
            stEmpty.seenIds).map FeedVideo.id).dedup.length ≤ 500 →
          ∀ v ∈ selectNew [some [fv1]] (windowStart 0 "daily") stEmpty.seenIds,
            v.id ∈ ({ lastRun := some 0, seenIds := [1] } : DigestState).seenIds)
      ∧ (∀ (feeds₂ : List (Option (List FeedVideo))) (startDate₂ : Int) (w : FeedVideo),
          w.id ∈ ({ lastRun := some 0, seenIds := [1] } : DigestState).seenIds →
          w ∉ selectNew feeds₂ startDate₂
            ({ lastRun := some 0, seenIds := [1] } : DigestState).seenIds)) :=
  ⟨by decide,
    commit_includes_short_excluded 0 "daily" [some [fv1]] detailsAllLong true none
      (fun _ => none) ["b", "c"] (fun r => r = "b") stEmpty
      { lastRun := some 0, seenIds := [1] } (by decide)⟩

/-- C10 counterexample: video 1 is a 30-second short among 501 selected
videos; it is selected (its id enters `video_ids`), excluded from the
email, committed — and immediately evicted by the cap truncation, so an
unchanged second run selects it again: the suppression is not permanent. -/
theorem short_excluded_reselected_cex :
    runShort1.success = true
    ∧ 1 ∈ runShort1.selectedIds
    ∧ 1 ∉ runShort1.keptIds
    ∧ runShort1.committed = some { lastRun := some 0, seenIds := keptAfterBig }
    ∧ runShort2.selectedIds = [1] := by
  obtain ⟨h1, h2, h3, h4⟩ := runShort1_eval
  refine ⟨h1, ?_, ?_, h4, runShort2_selects_one⟩
  · rw [h2]
    exact List.mem_range'_1.mpr (by omega)
  · rw [h3]
    intro h
    have := List.mem_range'_1.mp h
    omega

end DigestPy
